import Mathlib

/-!
Shallow embedding of the patient task-checklist subsystem of
src/public/app.js (hospice-patient case-management dashboard).

The JavaScript objects are modelled as Lean structures; the in-memory map
window.taskCompletionData (mirrored to localStorage) is modelled as an
association list from patient id to task list; the browser-side mutation
functions are modelled as pure state transformers.  A JavaScript statement
that would throw an uncaught TypeError (reading a property of undefined) is
modelled by Except.error; showNotification and setStatus are modelled by
appending to a notice log.  Display-only data (DOM updates, the note field
on the rxnt prescription subtask, console logging) is omitted.  Math.round
on the non-negative quantity 100*completed/total is modelled exactly as
rational rounding half-up: (200*completed + total) / (2*total) in natural
division.
-/

namespace Dashboard

/-- A sub-subtask leaf from app.js: a checkbox leaf has no type and no value
field; a free-text leaf has type 'input' and usually value ''.  Absent JS
fields are modelled by none. -/
structure SubSubtask where
  name : String
  type : Option String
  value : Option String
  complete : Bool
deriving DecidableEq, Repr

/-- A subtask from app.js: name, a completion flag, and an optional list of
sub-subtasks (absent field modelled by none). -/
structure Subtask where
  name : String
  complete : Bool
  subSubtasks : Option (List SubSubtask)
deriving DecidableEq, Repr

/-- A top-level task from app.js: id, display name and subtasks. -/
structure Task where
  id : String
  name : String
  subtasks : List Subtask
deriving DecidableEq, Repr

/-- Checkbox sub-subtask literal, e.g. JS: name: 'Paid via Check', complete: false. -/
def cbLeaf (n : String) : SubSubtask := ⟨n, none, none, false⟩

/-- Free-text sub-subtask literal, e.g. JS: name, type: 'input', value: '', complete: false. -/
def inputLeaf (n : String) : SubSubtask := ⟨n, some "input", some "", false⟩

/-- Subtask literal without a subSubtasks field. -/
def plainSub (n : String) : Subtask := ⟨n, false, none⟩

/-- Subtask literal with a subSubtasks field. -/
def withSubs (n : String) (l : List SubSubtask) : Subtask := ⟨n, false, some l⟩

/-- Transcription of initializePatientTasks from src/public/app.js: the fixed
11-task template, all completion flags false and all free-text values empty.
The ingestion Date leaf has type 'input' but no value field in the source, so
its value is none.  The note field on the rxnt prescription subtask is
display-only and omitted. -/
def initializePatientTasks : List Task :=
  [ ⟨"wr", "Send Adobe Forms",
      [withSubs "Written Request" [cbLeaf "Completed by Patient"],
       plainSub "Payment Schedule Form"]⟩,
    ⟨"invoice", "Quickbooks Invoice",
      [plainSub "Sent Invoice",
       withSubs "Payment Received" [cbLeaf "Paid via Quickbooks", cbLeaf "Paid via Check"]]⟩,
    ⟨"records", "Medical Records",
      [withSubs "Request Medical Records"
         [inputLeaf "Hospice/Doctor Name", inputLeaf "Request Method (Email/Doximity)"],
       plainSub "Medical Records Received"]⟩,
    ⟨"visit1", "Visit 1",
      [withSubs "Scheduled" [inputLeaf "Visit 1 Date"],
       plainSub "Complete"]⟩,
    ⟨"visit2", "Visit 2",
      [withSubs "Scheduled" [inputLeaf "Visit 2 Date"],
       plainSub "Complete"]⟩,
    ⟨"attending", "Attending Form",
      [plainSub "Started", plainSub "Complete", plainSub "In Emails Drafts"]⟩,
    ⟨"consulting", "Consulting Form",
      [withSubs "Received" [inputLeaf "CP Name"]]⟩,
    ⟨"rxnt", "RXNT",
      [plainSub "Patient Information Inputted",
       withSubs "Prescription" [cbLeaf "Pending", cbLeaf "Sent"]]⟩,
    ⟨"pharmacy", "Pharmacy Coordination",
      [plainSub "Email Drafted", plainSub "Email Sent"]⟩,
    ⟨"ingestion", "Ingestion",
      [withSubs "Ingestion Date" [⟨"Date", some "input", none, false⟩],
       plainSub "Medication Received by Patient",
       plainSub "Medication Taken by Patient"]⟩,
    ⟨"followup", "Follow up Form",
      [plainSub "Completed", plainSub "Sent to EOLOA"]⟩ ]

/-- JS test: subtask.subSubtasks and subtask.subSubtasks.length greater than 0. -/
def hasSubs (st : Subtask) : Bool :=
  match st.subSubtasks with
  | some l => decide (0 < l.length)
  | none => false

/-- Effective completion of one subtask as computed in calculateProgress and
in toggleSubtask: a subtask with a non-empty subSubtasks list is complete iff
all its sub-subtasks are complete, otherwise its own flag decides. -/
def effComplete (st : Subtask) : Bool :=
  if hasSubs st then (st.subSubtasks.getD []).all (fun l => l.complete)
  else st.complete

/-- The standard per-task counting loop shared by calculateProgress and
toggleSubtask for every non-invoice task: each subtask is one total item and
contributes one completed item per effComplete. -/
def standardCounts : List Subtask → Nat × Nat
  | [] => (0, 0)
  | st :: rest =>
    let q := standardCounts rest
    ((if effComplete st then 1 else 0) + q.1, 1 + q.2)

/-- The per-task counting loop in toggleSubSubtask and updateSubSubtaskInput
for every non-invoice task: it counts subtasks by their stored complete flag
only, not by recomputing from sub-subtasks. -/
def flagCounts : List Subtask → Nat × Nat
  | [] => (0, 0)
  | st :: rest =>
    let q := flagCounts rest
    ((if st.complete then 1 else 0) + q.1, 1 + q.2)

/-- JS: task.subtasks.find(s, s.name === 'Sent Invoice')?.complete or false. -/
def invoiceSent (task : Task) : Bool :=
  ((task.subtasks.find? (fun s => s.name == "Sent Invoice")).map (fun s => s.complete)).getD false

/-- The subSubtasks of the subtask named Payment Received, empty when either
level is absent (JS optional chaining). -/
def paymentLeaves (task : Task) : List SubSubtask :=
  (((task.subtasks.find? (fun s => s.name == "Payment Received")).bind
      (fun s => s.subSubtasks)).getD [])

/-- JS: paymentReceived?.subSubtasks?.find(name 'Paid via Quickbooks')?.complete or false. -/
def invoicePaidQB (task : Task) : Bool :=
  (((paymentLeaves task).find? (fun s => s.name == "Paid via Quickbooks")).map
      (fun s => s.complete)).getD false

/-- JS: paymentReceived?.subSubtasks?.find(name 'Paid via Check')?.complete or false. -/
def invoicePaidCheck (task : Task) : Bool :=
  (((paymentLeaves task).find? (fun s => s.name == "Paid via Check")).map
      (fun s => s.complete)).getD false

/-- Per-task item counts of calculateProgress: the invoice task counts
subtasks.length total items, and 1 completed for Sent Invoice plus 1 more if
either payment leaf is complete; every other task uses the standard loop. -/
def countsCalc (task : Task) : Nat × Nat :=
  if task.id == "invoice" then
    ((if invoiceSent task then
        (if invoicePaidQB task || invoicePaidCheck task then 2 else 1)
      else 0),
     task.subtasks.length)
  else standardCounts task.subtasks

/-- Accumulation of (completedItems, totalItems) over all tasks of a patient,
as the forEach loop of calculateProgress. -/
def sumCounts : List Task → Nat × Nat
  | [] => (0, 0)
  | t :: rest =>
    let p := countsCalc t
    let q := sumCounts rest
    (p.1 + q.1, p.2 + q.2)

/-- Math.round((completed/total)*100) for non-negative arguments: round half
up, computed exactly on naturals. -/
def jsRound100 (c t : Nat) : Nat := (200 * c + t) / (2 * t)

/-- JS: totalItems greater than 0, then Math.round, else 0. -/
def progressOfTasks (tasks : List Task) : Nat :=
  let p := sumCounts tasks
  if 0 < p.2 then jsRound100 p.1 p.2 else 0

/-- A patient record, restricted to the fields the checklist subsystem reads:
the generated id, the JS name property (used in the auto-archive status
message), the spreadsheet column 'Patient Name', the camel-case patientName
property, and the archive stamps.  Absent JS fields are none. -/
structure Patient where
  id : Option String
  name : Option String
  patientNameKey : Option String
  patientName : Option String
  archivedDate : Option String
  archivedBy : Option String
  archivedReason : Option String
deriving DecidableEq, Repr

/-- The persisted application state: window.taskCompletionData (an association
list keyed by patient id), the activePatients and archivedPatients arrays from
localStorage, and the log of user-visible notices. -/
structure AppState where
  taskData : List (String × List Task)
  activePatients : List Patient
  archivedPatients : List Patient
  notices : List String
deriving DecidableEq, Repr

/-- Read of the task map at one key, JS taskCompletionData[patientId]. -/
def storeLookup (st : List (String × List Task)) (k : String) : Option (List Task) :=
  (st.find? (fun e => e.1 == k)).map (fun e => e.2)

/-- Whole-value write of the task map at one key (JS object property
assignment): replace the entry carrying the key, or append a new one. -/
def storeInsert : List (String × List Task) → String → List Task →
    List (String × List Task)
  | [], k, v => [(k, v)]
  | e :: rest, k, v => if e.1 == k then (k, v) :: rest else e :: storeInsert rest k v

/-- calculateProgress from src/public/app.js: 0 when the patient has no entry
in the map, else the rounded percentage over the per-task counts. -/
def calculateProgress (s : AppState) (pid : String) : Nat :=
  match storeLookup s.taskData pid with
  | none => 0
  | some tasks => progressOfTasks tasks

/-- autoArchivePatient from src/public/app.js: look the patient up by id in
activePatients; on a miss return unchanged; otherwise stamp archivedDate (the
current date, passed in as today), archivedBy and archivedReason, move the
record to archivedPatients and record the status message.  The task map is
not touched. -/
def autoArchivePatient (today pid : String) (s : AppState) : AppState :=
  match s.activePatients.findIdx? (fun p => p.id == some pid) with
  | none => s
  | some i =>
    match s.activePatients[i]? with
    | none => s
    | some p =>
      let p2 := { p with archivedDate := some today,
                         archivedBy := some "Auto-Archive (100% Complete)",
                         archivedReason := some "All tasks completed" }
      { s with activePatients := s.activePatients.eraseIdx i,
               archivedPatients := s.archivedPatients ++ [p2],
               notices := s.notices ++
                 ["Patient " ++ (p.name.getD "undefined") ++
                  " has been automatically archived (100% complete)"] }

/-- The auto-archive trigger shared by the three toggle/update mutations:
when calculateProgress is 100 the (delayed) autoArchivePatient call runs. -/
def archiveCheck (today pid : String) (s : AppState) : AppState :=
  if calculateProgress s pid == 100 then autoArchivePatient today pid s else s

/-- JS test value.trim().length greater than 0: the string holds at least
one non-whitespace character.  (String.trim itself does not reduce in the
kernel; the code only ever uses the trimmed length for this emptiness test,
so the predicate is modelled directly.) -/
def hasContent (s : String) : Bool := s.toList.any (fun c => !c.isWhitespace)

/-- State with one patient's tree replaced and persisted. -/
def withTree (s : AppState) (pid : String) (tasks : List Task) : AppState :=
  { s with taskData := storeInsert s.taskData pid tasks }

/-- Flip of one subtask flag, JS: task.subtasks[subtaskIndex].complete = checked. -/
def toggledSub (st : Subtask) : Subtask := { st with complete := !st.complete }

/-- Subtask with its sub-subtask list replaced and its flag recomputed as
completed-sub-subtasks equal to total, the shared tail of toggleSubSubtask
and updateSubSubtaskInput. -/
def recomputedSub (st : Subtask) (leaves2 : List SubSubtask) : Subtask :=
  { st with subSubtasks := some leaves2,
            complete := leaves2.countP (fun l => l.complete) == leaves2.length }

/-- Task with the subtask at one index replaced. -/
def setSubtask (task : Task) (si : Nat) (st2 : Subtask) : Task :=
  { task with subtasks := task.subtasks.set si st2 }

/-- toggleSubtask from src/public/app.js.  Reading
taskCompletionData[patientId][taskIndex] with an unknown patient throws, as
does task.subtasks[subtaskIndex].complete with an out-of-range index; both
are modelled by Except.error.  Otherwise the flag is flipped, the whole tree
is persisted, and the auto-archive check runs on the new progress. -/
def toggleSubtask (today pid : String) (ti si : Nat) (s : AppState) :
    Except String AppState :=
  match storeLookup s.taskData pid with
  | none => .error "TypeError: taskCompletionData[patientId] is undefined"
  | some tasks =>
    match tasks[ti]? with
    | none => .error "TypeError: task is undefined"
    | some task =>
      match task.subtasks[si]? with
      | none => .error "TypeError: subtask is undefined"
      | some st =>
        .ok (archiveCheck today pid
          (withTree s pid (tasks.set ti (setSubtask task si (toggledSub st)))))

/-- toggleSubSubtask from src/public/app.js: flip the leaf, recompute the
parent subtask flag as completed-sub-subtasks equal to total, persist, run the
auto-archive check.  Undefined reads are modelled by Except.error. -/
def toggleSubSubtask (today pid : String) (ti si ssi : Nat) (s : AppState) :
    Except String AppState :=
  match storeLookup s.taskData pid with
  | none => .error "TypeError: taskCompletionData[patientId] is undefined"
  | some tasks =>
    match tasks[ti]? with
    | none => .error "TypeError: task is undefined"
    | some task =>
      match task.subtasks[si]? with
      | none => .error "TypeError: subtask is undefined"
      | some st =>
        match st.subSubtasks with
        | none => .error "TypeError: subtask.subSubtasks is undefined"
        | some leaves =>
          match leaves[ssi]? with
          | none => .error "TypeError: sub-subtask is undefined"
          | some leaf =>
            .ok (archiveCheck today pid
              (withTree s pid (tasks.set ti (setSubtask task si
                (recomputedSub st (leaves.set ssi { leaf with complete := !leaf.complete }))))))

/-- updateSubSubtaskInput from src/public/app.js: store the raw string as the
leaf value, set the leaf flag to trimmed-length greater than 0, recompute the
parent subtask flag, persist, run the auto-archive check. -/
def updateSubSubtaskInput (today pid : String) (ti si ssi : Nat) (v : String)
    (s : AppState) : Except String AppState :=
  match storeLookup s.taskData pid with
  | none => .error "TypeError: taskCompletionData[patientId] is undefined"
  | some tasks =>
    match tasks[ti]? with
    | none => .error "TypeError: task is undefined"
    | some task =>
      match task.subtasks[si]? with
      | none => .error "TypeError: subtask is undefined"
      | some st =>
        match st.subSubtasks with
        | none => .error "TypeError: subtask.subSubtasks is undefined"
        | some leaves =>
          match leaves[ssi]? with
          | none => .error "TypeError: sub-subtask is undefined"
          | some leaf =>
            .ok (archiveCheck today pid
              (withTree s pid (tasks.set ti (setSubtask task si
                (recomputedSub st (leaves.set ssi
                  { leaf with value := some v,
                              complete := hasContent v }))))))

/-- JS String.prototype.toLowerCase, character by character (String.toLower
itself does not reduce in the kernel; for the ASCII names involved the two
agree). -/
def jsToLower (s : String) : String := String.mk (s.toList.map Char.toLower)

/-- JS substring test needle-in-haystack, as String.prototype.includes. -/
def strIncludes (hay needle : String) : Bool :=
  (List.range (hay.toList.length + 1)).any
    (fun i => needle.toList.isPrefixOf (hay.toList.drop i))

/-- The findIndex predicate of markAllTasksComplete: case-insensitive
substring match on the column 'Patient Name' or the property patientName,
each guarded by presence of the field. -/
def nameMatches (q : String) (p : Patient) : Bool :=
  (match p.patientNameKey with
   | some n => strIncludes (jsToLower n) (jsToLower q)
   | none => false) ||
  (match p.patientName with
   | some n => strIncludes (jsToLower n) (jsToLower q)
   | none => false)

/-- Marking loop of markAllTasksComplete on one sub-subtask. -/
def markLeafComplete (l : SubSubtask) : SubSubtask := { l with complete := true }

/-- Marking loop of markAllTasksComplete on one subtask: the flag and every
sub-subtask flag become true; free-text values are not touched. -/
def markSubtaskComplete (st : Subtask) : Subtask :=
  { st with complete := true,
            subSubtasks := st.subSubtasks.map (fun l => l.map markLeafComplete) }

/-- Marking loop of markAllTasksComplete on one task. -/
def markTaskComplete (t : Task) : Task :=
  { t with subtasks := t.subtasks.map markSubtaskComplete }

/-- Body of markAllTasksComplete on the task map: initialize a missing entry
from the template, then set every subtask and sub-subtask flag true and
persist. -/
def markStore (store : List (String × List Task)) (pid : String) :
    List (String × List Task) :=
  let data0 := if (storeLookup store pid).isSome then store
               else storeInsert store pid initializePatientTasks
  storeInsert data0 pid (((storeLookup data0 pid).getD []).map markTaskComplete)

/-- markAllTasksComplete from src/public/app.js: find the first active
patient whose name matches; on a miss record the error notice and stop.  The
patient id falls back to a freshly generated string (passed in, since it
contains Date.now()) when the id field is missing or empty.  A missing map
entry is initialized from the template first, then every flag is set true,
the map is persisted and the success notice recorded.  The function never
throws (its body is wrapped in try/catch) and never archives. -/
def markAllTasksComplete (q fallbackId : String) (s : AppState) : AppState :=
  match s.activePatients.find? (nameMatches q) with
  | none =>
    { s with notices := s.notices ++
        ["Patient \"" ++ q ++ "\" not found in active patients"] }
  | some p =>
    let pid := match p.id with
      | some i => if i == "" then fallbackId else i
      | none => fallbackId
    { s with taskData := markStore s.taskData pid,
             notices := s.notices ++
               ["All tasks marked as complete for " ++ q ++ "!"] }

/-- restorePatient from src/public/app.js: at a valid archived index the
record loses archivedDate and archivedBy (archivedReason is not deleted), is
appended to activePatients and removed from archivedPatients; an invalid
index only records a notice.  The task map is not touched. -/
def restorePatient (idx : Nat) (s : AppState) : AppState :=
  if h : idx < s.archivedPatients.length then
    let p := s.archivedPatients[idx]
    let p2 := { p with archivedDate := none, archivedBy := none }
    { s with activePatients := s.activePatients ++ [p2],
             archivedPatients := s.archivedPatients.eraseIdx idx,
             notices := s.notices ++
               ["Patient " ++ (p.patientNameKey.getD "Unknown") ++
                " restored to active patients!"] }
  else
    { s with notices := s.notices ++ ["Invalid patient index"] }

/-- Initialization of a missing map entry from the template, as done at
first view of a patient timeline (app.js, loadPatientTimelines) and inside
markAllTasksComplete. -/
def ensureTasks (pid : String) (s : AppState) : AppState :=
  if (storeLookup s.taskData pid).isSome then s
  else { s with taskData := storeInsert s.taskData pid initializePatientTasks }

/-- The task status displayed in the task header. -/
inductive TaskStatus where
  | notStarted
  | inProgress
  | fullyComplete
deriving DecidableEq, Repr

/-- Status derivation shared verbatim by all three mutation sites: completed
equal 0 is not started, completed equal total is complete, anything else is
partially complete. -/
def statusOf (p : Nat × Nat) : TaskStatus :=
  if p.1 == 0 then .notStarted
  else if p.1 == p.2 then .fullyComplete
  else .inProgress

/-- The per-task recount written inline in toggleSubtask: the invoice branch
marks completed equal to subtasks.length when Sent Invoice and a payment leaf
are complete, 1 when only Sent Invoice is, else 0; the other branch is the
standard loop over effComplete. -/
def countsAtToggleSubtask (task : Task) : Nat × Nat :=
  if task.id == "invoice" then
    ((if invoiceSent task && (invoicePaidQB task || invoicePaidCheck task) then
        task.subtasks.length
      else if invoiceSent task then 1
      else 0),
     task.subtasks.length)
  else standardCounts task.subtasks

/-- The per-task recount written inline in toggleSubSubtask: same invoice
branch, but the non-invoice branch counts by the stored subtask flags only. -/
def countsAtToggleSubSubtask (task : Task) : Nat × Nat :=
  if task.id == "invoice" then
    ((if invoiceSent task && (invoicePaidQB task || invoicePaidCheck task) then
        task.subtasks.length
      else if invoiceSent task then 1
      else 0),
     task.subtasks.length)
  else flagCounts task.subtasks

/-- The per-task recount written inline in updateSubSubtaskInput: textually
the same as the toggleSubSubtask copy. -/
def countsAtUpdateInput (task : Task) : Nat × Nat :=
  if task.id == "invoice" then
    ((if invoiceSent task && (invoicePaidQB task || invoicePaidCheck task) then
        task.subtasks.length
      else if invoiceSent task then 1
      else 0),
     task.subtasks.length)
  else flagCounts task.subtasks

/-- Navigation to one subtask in the map, for stating properties: none
exactly when the patient id, the task index or the subtask index misses. -/
def subtaskAt (store : List (String × List Task)) (pid : String) (ti si : Nat) :
    Option Subtask :=
  ((storeLookup store pid).bind (fun tasks => tasks[ti]?)).bind
    (fun task => task.subtasks[si]?)

/-- Navigation to one sub-subtask in the map, for stating properties. -/
def leafAt (store : List (String × List Task)) (pid : String) (ti si ssi : Nat) :
    Option SubSubtask :=
  ((((storeLookup store pid).bind (fun tasks => tasks[ti]?)).bind
      (fun task => task.subtasks[si]?)).bind
      (fun st => st.subSubtasks)).bind (fun leaves => leaves[ssi]?)

/-- Whether a mutation ended in a thrown TypeError. -/
def threw (r : Except String AppState) : Bool :=
  match r with
  | .error _ => true
  | .ok _ => false

/-- States reachable by the checklist operations, starting from an empty task
map with arbitrary patient rosters: first-view initialization of an entry,
the three tree mutations (when they do not throw), markAllTasksComplete and
restorePatient. -/
inductive Reachable : AppState → Prop where
  | base (active archived : List Patient) :
      Reachable ⟨[], active, archived, []⟩
  | viewInit (pid : String) (s : AppState) :
      Reachable s → Reachable (ensureTasks pid s)
  | stepToggleSubtask (today pid : String) (ti si : Nat) (s s' : AppState) :
      Reachable s → toggleSubtask today pid ti si s = .ok s' → Reachable s'
  | stepToggleSubSubtask (today pid : String) (ti si ssi : Nat) (s s' : AppState) :
      Reachable s → toggleSubSubtask today pid ti si ssi s = .ok s' → Reachable s'
  | stepUpdateInput (today pid : String) (ti si ssi : Nat) (v : String) (s s' : AppState) :
      Reachable s → updateSubSubtaskInput today pid ti si ssi v s = .ok s' → Reachable s'
  | stepMarkAll (q fallbackId : String) (s : AppState) :
      Reachable s → Reachable (markAllTasksComplete q fallbackId s)
  | stepRestore (idx : Nat) (s : AppState) :
      Reachable s → Reachable (restorePatient idx s)

/-- States reachable without markAllTasksComplete and without
toggleSubSubtask (the two operations that touch completion flags of
free-text leaves without touching their stored text). -/
inductive InputReachable : AppState → Prop where
  | base (active archived : List Patient) :
      InputReachable ⟨[], active, archived, []⟩
  | viewInit (pid : String) (s : AppState) :
      InputReachable s → InputReachable (ensureTasks pid s)
  | stepToggleSubtask (today pid : String) (ti si : Nat) (s s' : AppState) :
      InputReachable s → toggleSubtask today pid ti si s = .ok s' → InputReachable s'
  | stepUpdateInput (today pid : String) (ti si ssi : Nat) (v : String) (s s' : AppState) :
      InputReachable s → updateSubSubtaskInput today pid ti si ssi v s = .ok s' →
      InputReachable s'
  | stepRestore (idx : Nat) (s : AppState) :
      InputReachable s → InputReachable (restorePatient idx s)

/-- Structural facts about one task that every operation preserves: the
invoice task keeps exactly its two template subtasks, and every other task
has at most one subtask carrying a non-empty subSubtasks list. -/
def shapeTask (t : Task) : Bool :=
  if t.id == "invoice" then t.subtasks.length == 2
  else decide (t.subtasks.countP hasSubs ≤ 1)

/-- Shape invariant over the whole task map. -/
def ShapeOK (store : List (String × List Task)) : Prop :=
  ∀ e ∈ store, ∀ t ∈ e.2, shapeTask t = true

/-- Invariant of one sub-subtask: a free-text leaf is complete exactly when
its stored value has a non-empty trim. -/
def leafInv (l : SubSubtask) : Bool :=
  if l.type == some "input" then
    l.complete == hasContent (l.value.getD "")
  else true

/-- Free-text invariant over the whole task map. -/
def InputInv (store : List (String × List Task)) : Prop :=
  ∀ e ∈ store, ∀ t ∈ e.2, ∀ st ∈ t.subtasks, ∀ l ∈ st.subSubtasks.getD [],
    leafInv l = true

section ListHelpers

variable {α : Type}

theorem getElem?_set_self_of_lt (l : List α) (i : Nat) (a : α) (h : i < l.length) :
    (l.set i a)[i]? = some a := by
  rw [List.getElem?_set_self']
  simp [List.getElem?_eq_getElem h]

theorem countP_set_eq (p : α → Bool) (l : List α) (i : Nat) (a b : α)
    (hget : l[i]? = some b) (hp : p a = p b) : (l.set i a).countP p = l.countP p := by
  induction l generalizing i with
  | nil => simp at hget
  | cons c rest ih =>
    cases i with
    | zero =>
      simp only [List.getElem?_cons_zero, Option.some.injEq] at hget
      subst hget
      simp [List.set, List.countP_cons, hp]
    | succ j =>
      simp only [List.getElem?_cons_succ] at hget
      simp [List.set, List.countP_cons, ih j hget]

theorem two_le_countP (p : α → Bool) (l : List α) (a b : α) (ha : a ∈ l) (hb : b ∈ l)
    (hne : a ≠ b) (hpa : p a = true) (hpb : p b = true) : 2 ≤ l.countP p := by
  induction l with
  | nil => simp at ha
  | cons c rest ih =>
    rw [List.countP_cons]
    rcases List.mem_cons.mp ha with rfl | ha'
    · have hb' : b ∈ rest := by
        rcases List.mem_cons.mp hb with rfl | h
        · exact absurd rfl hne
        · exact h
      have h1 : 0 < rest.countP p := List.countP_pos_iff.mpr ⟨b, hb', hpb⟩
      rw [hpa, if_pos rfl]
      omega
    · rcases List.mem_cons.mp hb with rfl | hb'
      · have h1 : 0 < rest.countP p := List.countP_pos_iff.mpr ⟨a, ha', hpa⟩
        rw [hpb, if_pos rfl]
        omega
      · have h2 := ih ha' hb'
        cases hpc : p c
        · rw [if_neg (by simp)]
          omega
        · rw [if_pos rfl]
          omega

theorem two_le_length_of_two_mem (l : List α) (a b : α) (ha : a ∈ l) (hb : b ∈ l)
    (hne : a ≠ b) : 2 ≤ l.length := by
  match l with
  | [] => simp at ha
  | [x] =>
    simp only [List.mem_singleton] at ha hb
    exact absurd (ha.trans hb.symm) hne
  | x :: y :: rest => simp [List.length]

theorem countP_eq_length_beq (p : α → Bool) (l : List α) :
    (l.countP p == l.length) = l.all p := by
  by_cases h : l.countP p = l.length
  · rw [h, beq_self_eq_true]
    exact (List.all_eq_true.mpr (List.countP_eq_length.mp h)).symm
  · have h1 : (l.countP p == l.length) = false := by
      simpa using h
    have h2 : l.all p = false := by
      cases hall : l.all p
      · rfl
      · exact absurd (List.countP_eq_length.mpr (List.all_eq_true.mp hall)) h
    rw [h1, h2]

end ListHelpers

section CountsLemmas

/-- The recursive accumulation loop counts effComplete subtasks. -/
theorem standardCounts_eq (l : List Subtask) :
    standardCounts l = (l.countP effComplete, l.length) := by
  induction l with
  | nil => rfl
  | cons st rest ih =>
    have hc : standardCounts (st :: rest) =
        ((if effComplete st then 1 else 0) + (standardCounts rest).1,
         1 + (standardCounts rest).2) := rfl
    rw [hc, ih, List.countP_cons, List.length_cons]
    cases h : effComplete st <;> simp [h, Nat.add_comm]

/-- The flag-only accumulation loop counts raw complete flags. -/
theorem flagCounts_eq (l : List Subtask) :
    flagCounts l = (l.countP (fun st => st.complete), l.length) := by
  induction l with
  | nil => rfl
  | cons st rest ih =>
    have hc : flagCounts (st :: rest) =
        ((if st.complete then 1 else 0) + (flagCounts rest).1,
         1 + (flagCounts rest).2) := rfl
    rw [hc, ih, List.countP_cons, List.length_cons]
    cases h : st.complete <;> simp [h, Nat.add_comm]

/-- When every stored subtask flag already equals its effective completion,
the flag-only count and the recomputing count agree. -/
theorem flagCounts_eq_standardCounts (l : List Subtask)
    (h : ∀ x ∈ l, x.complete = effComplete x) : flagCounts l = standardCounts l := by
  rw [flagCounts_eq, standardCounts_eq]
  have : l.countP (fun st => st.complete) = l.countP effComplete :=
    List.countP_congr (fun x hx => by rw [h x hx])
  rw [this]

/-- Replacing one task by one with identical item counts leaves the patient
totals unchanged. -/
theorem sumCounts_set (l : List Task) (i : Nat) (a b : Task)
    (hget : l[i]? = some b) (hc : countsCalc a = countsCalc b) :
    sumCounts (l.set i a) = sumCounts l := by
  induction l generalizing i with
  | nil => simp at hget
  | cons c rest ih =>
    cases i with
    | zero =>
      simp only [List.getElem?_cons_zero, Option.some.injEq] at hget
      subst hget
      simp [List.set, sumCounts, hc]
    | succ j =>
      simp only [List.getElem?_cons_succ] at hget
      simp [List.set, sumCounts, ih j hget]

end CountsLemmas

section StoreLemmas

theorem storeLookup_insert_self (st : List (String × List Task)) (k : String)
    (v : List Task) : storeLookup (storeInsert st k v) k = some v := by
  induction st with
  | nil => simp [storeInsert, storeLookup]
  | cons e rest ih =>
    by_cases he : (e.1 == k) = true
    · simp [storeInsert, he, storeLookup]
    · have he' : (e.1 == k) = false := by
        cases h : e.1 == k
        · rfl
        · exact absurd h he
      simp only [storeInsert, he', Bool.false_eq_true, if_false]
      unfold storeLookup
      rw [List.find?_cons_of_neg _ (by simpa using he')]
      exact ih

theorem mem_storeInsert (st : List (String × List Task)) (k : String) (v : List Task)
    (x : String × List Task) (h : x ∈ storeInsert st k v) : x ∈ st ∨ x = (k, v) := by
  induction st with
  | nil =>
    right
    simpa [storeInsert] using h
  | cons e rest ih =>
    by_cases he : (e.1 == k) = true
    · simp only [storeInsert, he, if_true] at h
      rcases List.mem_cons.mp h with rfl | h'
      · exact Or.inr rfl
      · exact Or.inl (List.mem_cons_of_mem e h')
    · have he' : (e.1 == k) = false := by
        cases hh : e.1 == k
        · rfl
        · exact absurd hh he
      simp only [storeInsert, he', Bool.false_eq_true, if_false] at h
      rcases List.mem_cons.mp h with rfl | h'
      · exact Or.inl (List.mem_cons_self x rest)
      · rcases ih h' with h2 | h2
        · exact Or.inl (List.mem_cons_of_mem e h2)
        · exact Or.inr h2

theorem storeLookup_mem (st : List (String × List Task)) (k : String) (v : List Task)
    (h : storeLookup st k = some v) : ∃ e ∈ st, e.2 = v := by
  unfold storeLookup at h
  cases hf : st.find? (fun e => e.1 == k) with
  | none => rw [hf] at h; simp at h
  | some e =>
    rw [hf] at h
    simp only [Option.map_some', Option.some.injEq] at h
    exact ⟨e, List.mem_of_find?_eq_some hf, h⟩

theorem archiveCheck_taskData (today pid : String) (s : AppState) :
    (archiveCheck today pid s).taskData = s.taskData := by
  unfold archiveCheck autoArchivePatient
  split
  · split
    · rfl
    · split
      · rfl
      · rfl
  · rfl

end StoreLemmas

section BoundLemmas

theorem invoiceSent_mem (t : Task) (h : invoiceSent t = true) :
    ∃ a ∈ t.subtasks, a.name = "Sent Invoice" ∧ a.complete = true := by
  unfold invoiceSent at h
  cases hf : t.subtasks.find? (fun s => s.name == "Sent Invoice") with
  | none => rw [hf] at h; simp at h
  | some a =>
    rw [hf] at h
    simp only [Option.map_some', Option.getD_some] at h
    have hm := List.mem_of_find?_eq_some hf
    have hn := List.find?_some hf
    simp only [beq_iff_eq] at hn
    exact ⟨a, hm, hn, h⟩

theorem invoicePaid_mem (t : Task)
    (h : (invoicePaidQB t || invoicePaidCheck t) = true) :
    ∃ b ∈ t.subtasks, b.name = "Payment Received" := by
  have hpl : paymentLeaves t ≠ [] := by
    intro hnil
    unfold invoicePaidQB invoicePaidCheck at h
    rw [hnil] at h
    simp at h
  unfold paymentLeaves at hpl
  cases hf : t.subtasks.find? (fun s => s.name == "Payment Received") with
  | none => rw [hf] at hpl; simp at hpl
  | some b =>
    have hm := List.mem_of_find?_eq_some hf
    have hn := List.find?_some hf
    simp only [beq_iff_eq] at hn
    exact ⟨b, hm, hn⟩

/-- Completed items never exceed total items for a single task: in the
invoice branch a completed count of 1 or 2 forces the named subtasks to
exist, so subtasks.length is at least 1 or 2. -/
theorem countsCalc_le (t : Task) : (countsCalc t).1 ≤ (countsCalc t).2 := by
  unfold countsCalc
  by_cases hid : t.id == "invoice"
  · rw [if_pos hid]
    cases hsent : invoiceSent t
    · simp
    · cases hpaid : invoicePaidQB t || invoicePaidCheck t
      · simp only [if_pos rfl, hpaid, if_neg]
        rcases invoiceSent_mem t hsent with ⟨a, ha, _, _⟩
        have := List.length_pos.mpr (List.ne_nil_of_mem ha)
        simp
        omega
      · simp only [if_pos rfl, hpaid, if_pos]
        rcases invoiceSent_mem t hsent with ⟨a, ha, hna, _⟩
        rcases invoicePaid_mem t hpaid with ⟨b, hb, hnb⟩
        have hne : a ≠ b := by
          intro he
          rw [he, hnb] at hna
          exact absurd hna (by decide)
        have := two_le_length_of_two_mem t.subtasks a b ha hb hne
        simp
        omega
  · rw [if_neg hid, standardCounts_eq]
    exact List.countP_le_length effComplete

theorem sumCounts_le (l : List Task) : (sumCounts l).1 ≤ (sumCounts l).2 := by
  induction l with
  | nil => exact Nat.le_refl 0
  | cons t rest ih =>
    have hc : sumCounts (t :: rest) =
        ((countsCalc t).1 + (sumCounts rest).1, (countsCalc t).2 + (sumCounts rest).2) := rfl
    rw [hc]
    have := countsCalc_le t
    simp
    omega

theorem jsRound100_le (c t : Nat) (hc : c ≤ t) (ht : 0 < t) : jsRound100 c t ≤ 100 := by
  have h2t : 0 < 2 * t := by omega
  have h : 200 * c + t < 101 * (2 * t) := by omega
  have := (Nat.div_lt_iff_lt_mul h2t).mpr h
  unfold jsRound100
  omega

theorem progressOfTasks_le (tasks : List Task) : progressOfTasks tasks ≤ 100 := by
  unfold progressOfTasks
  by_cases h : 0 < (sumCounts tasks).2
  · rw [if_pos h]
    exact jsRound100_le _ _ (sumCounts_le tasks) h
  · rw [if_neg h]
    omega

end BoundLemmas

section InversionLemmas

/-- Characterization of a successful toggleSubtask call. -/
theorem toggleSubtask_ok_inv (today pid : String) (ti si : Nat) (s s' : AppState)
    (h : toggleSubtask today pid ti si s = .ok s') :
    ∃ tasks task st, storeLookup s.taskData pid = some tasks ∧ tasks[ti]? = some task ∧
      task.subtasks[si]? = some st ∧
      s' = archiveCheck today pid
        (withTree s pid (tasks.set ti (setSubtask task si (toggledSub st)))) := by
  unfold toggleSubtask at h
  split at h
  · exact absurd h (by simp)
  · next tasks hl =>
    split at h
    · exact absurd h (by simp)
    · next task hg =>
      split at h
      · exact absurd h (by simp)
      · next st hst =>
        simp only [Except.ok.injEq] at h
        exact ⟨tasks, task, st, hl, hg, hst, h.symm⟩

/-- Characterization of a successful toggleSubSubtask call. -/
theorem toggleSubSubtask_ok_inv (today pid : String) (ti si ssi : Nat) (s s' : AppState)
    (h : toggleSubSubtask today pid ti si ssi s = .ok s') :
    ∃ tasks task st leaves leaf,
      storeLookup s.taskData pid = some tasks ∧ tasks[ti]? = some task ∧
      task.subtasks[si]? = some st ∧ st.subSubtasks = some leaves ∧
      leaves[ssi]? = some leaf ∧
      s' = archiveCheck today pid
        (withTree s pid (tasks.set ti (setSubtask task si
          (recomputedSub st (leaves.set ssi { leaf with complete := !leaf.complete }))))) := by
  unfold toggleSubSubtask at h
  split at h
  · exact absurd h (by simp)
  · next tasks hl =>
    split at h
    · exact absurd h (by simp)
    · next task hg =>
      split at h
      · exact absurd h (by simp)
      · next st hst =>
        split at h
        · exact absurd h (by simp)
        · next leaves hlv =>
          split at h
          · exact absurd h (by simp)
          · next leaf hlf =>
            simp only [Except.ok.injEq] at h
            exact ⟨tasks, task, st, leaves, leaf, hl, hg, hst, hlv, hlf, h.symm⟩

/-- Characterization of a successful updateSubSubtaskInput call. -/
theorem updateSubSubtaskInput_ok_inv (today pid : String) (ti si ssi : Nat) (v : String)
    (s s' : AppState) (h : updateSubSubtaskInput today pid ti si ssi v s = .ok s') :
    ∃ tasks task st leaves leaf,
      storeLookup s.taskData pid = some tasks ∧ tasks[ti]? = some task ∧
      task.subtasks[si]? = some st ∧ st.subSubtasks = some leaves ∧
      leaves[ssi]? = some leaf ∧
      s' = archiveCheck today pid
        (withTree s pid (tasks.set ti (setSubtask task si
          (recomputedSub st (leaves.set ssi
            { leaf with value := some v, complete := hasContent v }))))) := by
  unfold updateSubSubtaskInput at h
  split at h
  · exact absurd h (by simp)
  · next tasks hl =>
    split at h
    · exact absurd h (by simp)
    · next task hg =>
      split at h
      · exact absurd h (by simp)
      · next st hst =>
        split at h
        · exact absurd h (by simp)
        · next leaves hlv =>
          split at h
          · exact absurd h (by simp)
          · next leaf hlf =>
            simp only [Except.ok.injEq] at h
            exact ⟨tasks, task, st, leaves, leaf, hl, hg, hst, hlv, hlf, h.symm⟩

end InversionLemmas

section ShapeLemmas

theorem hasSubs_set_complete (st : Subtask) (b : Bool) :
    hasSubs { st with complete := b } = hasSubs st := rfl

theorem hasSubs_set_leaves (st : Subtask) (leaves leaves2 : List SubSubtask) (c : Bool)
    (hs : st.subSubtasks = some leaves) (hlen : leaves2.length = leaves.length) :
    hasSubs { st with subSubtasks := some leaves2, complete := c } = hasSubs st := by
  unfold hasSubs
  rw [hs]
  simp [hlen]

theorem shapeTask_set (task : Task) (si : Nat) (st st2 : Subtask)
    (hget : task.subtasks[si]? = some st) (hh : hasSubs st2 = hasSubs st) :
    shapeTask { task with subtasks := task.subtasks.set si st2 } = shapeTask task := by
  unfold shapeTask
  dsimp only
  by_cases hid : (task.id == "invoice") = true
  · rw [if_pos hid, if_pos hid, List.length_set]
  · rw [if_neg hid, if_neg hid, countP_set_eq hasSubs task.subtasks si st2 st hget hh]

theorem shapeOK_insert (st : List (String × List Task)) (k : String) (l : List Task)
    (h : ShapeOK st) (hl : ∀ t ∈ l, shapeTask t = true) : ShapeOK (storeInsert st k l) := by
  intro e he t ht
  rcases mem_storeInsert st k l e he with h1 | h1
  · exact h e h1 t ht
  · subst h1
    exact hl t ht

/-- Replacing the task at one index by a task of equal shape preserves the
shape invariant of the whole store. -/
theorem shapeOK_setTask (store : List (String × List Task)) (pid : String)
    (tasks : List Task) (ti : Nat) (task task2 : Task)
    (h : ShapeOK store) (hl : storeLookup store pid = some tasks)
    (hg : tasks[ti]? = some task) (hs : shapeTask task2 = shapeTask task) :
    ShapeOK (storeInsert store pid (tasks.set ti task2)) := by
  rcases storeLookup_mem store pid tasks hl with ⟨e, he, he2⟩
  apply shapeOK_insert store pid _ h
  intro t ht
  rcases List.mem_or_eq_of_mem_set ht with h1 | h1
  · exact h e he t (by rw [he2]; exact h1)
  · subst h1
    rw [hs]
    exact h e he task (by rw [he2]; exact List.getElem?_mem hg)

theorem shapeTask_template : ∀ t ∈ initializePatientTasks, shapeTask t = true := by
  decide

theorem hasSubs_mark (x : Subtask) : hasSubs (markSubtaskComplete x) = hasSubs x := by
  unfold markSubtaskComplete hasSubs
  cases x.subSubtasks with
  | none => rfl
  | some l => simp

theorem shapeTask_mark (t : Task) : shapeTask (markTaskComplete t) = shapeTask t := by
  unfold shapeTask markTaskComplete
  dsimp only
  by_cases hid : (t.id == "invoice") = true
  · rw [if_pos hid, if_pos hid, List.length_map]
  · rw [if_neg hid, if_neg hid, List.countP_map]
    have hc : t.subtasks.countP (hasSubs ∘ markSubtaskComplete) =
        t.subtasks.countP hasSubs :=
      List.countP_congr (fun x _ => by
        simp only [Function.comp_apply, hasSubs_mark x])
    rw [hc]

theorem shapeOK_markStore (store : List (String × List Task)) (pid : String)
    (h : ShapeOK store) : ShapeOK (markStore store pid) := by
  unfold markStore
  have hd : ShapeOK (if (storeLookup store pid).isSome then store
      else storeInsert store pid initializePatientTasks) := by
    split
    · exact h
    · exact shapeOK_insert store pid _ h shapeTask_template
  apply shapeOK_insert _ _ _ hd
  intro t ht
  rcases List.mem_map.mp ht with ⟨t0, ht0, rfl⟩
  rw [shapeTask_mark]
  cases hlk : storeLookup (if (storeLookup store pid).isSome then store
      else storeInsert store pid initializePatientTasks) pid with
  | none => rw [hlk] at ht0; simp at ht0
  | some tl =>
    rw [hlk] at ht0
    rcases storeLookup_mem _ _ _ hlk with ⟨e, he, he2⟩
    exact hd e he t0 (by rw [he2]; simpa using ht0)

theorem shapeOK_ensure (pid : String) (s : AppState) (h : ShapeOK s.taskData) :
    ShapeOK (ensureTasks pid s).taskData := by
  unfold ensureTasks
  split
  · exact h
  · exact shapeOK_insert s.taskData pid _ h shapeTask_template

theorem restorePatient_taskData (idx : Nat) (s : AppState) :
    (restorePatient idx s).taskData = s.taskData := by
  unfold restorePatient
  split <;> rfl

theorem markAll_taskData (q fid : String) (s : AppState) :
    ShapeOK s.taskData → ShapeOK (markAllTasksComplete q fid s).taskData := by
  intro h
  unfold markAllTasksComplete
  split
  · exact h
  · exact shapeOK_markStore s.taskData _ h

theorem shapeOK_toggleSubtask (today pid : String) (ti si : Nat) (s s' : AppState)
    (h : ShapeOK s.taskData) (hok : toggleSubtask today pid ti si s = .ok s') :
    ShapeOK s'.taskData := by
  rcases toggleSubtask_ok_inv today pid ti si s s' hok with ⟨tasks, task, st, hl, hg, hst, hs'⟩
  subst hs'
  rw [archiveCheck_taskData]
  exact shapeOK_setTask s.taskData pid tasks ti task _ h hl hg
    (shapeTask_set task si st (toggledSub st) hst rfl)

theorem shapeOK_toggleSubSubtask (today pid : String) (ti si ssi : Nat) (s s' : AppState)
    (h : ShapeOK s.taskData) (hok : toggleSubSubtask today pid ti si ssi s = .ok s') :
    ShapeOK s'.taskData := by
  rcases toggleSubSubtask_ok_inv today pid ti si ssi s s' hok with
    ⟨tasks, task, st, leaves, leaf, hl, hg, hst, hlv, hlf, hs'⟩
  subst hs'
  rw [archiveCheck_taskData]
  exact shapeOK_setTask s.taskData pid tasks ti task _ h hl hg
    (shapeTask_set task si st _ hst
      (hasSubs_set_leaves st leaves _ _ hlv (List.length_set leaves ssi _)))

theorem shapeOK_updateInput (today pid : String) (ti si ssi : Nat) (v : String)
    (s s' : AppState) (h : ShapeOK s.taskData)
    (hok : updateSubSubtaskInput today pid ti si ssi v s = .ok s') :
    ShapeOK s'.taskData := by
  rcases updateSubSubtaskInput_ok_inv today pid ti si ssi v s s' hok with
    ⟨tasks, task, st, leaves, leaf, hl, hg, hst, hlv, hlf, hs'⟩
  subst hs'
  rw [archiveCheck_taskData]
  exact shapeOK_setTask s.taskData pid tasks ti task _ h hl hg
    (shapeTask_set task si st _ hst
      (hasSubs_set_leaves st leaves _ _ hlv (List.length_set leaves ssi _)))

/-- Every reachable state satisfies the shape invariant: the invoice task has
exactly 2 subtasks and every other task has at most one subtask carrying a
non-empty subSubtasks list. -/
theorem reachable_shapeOK (s : AppState) (h : Reachable s) : ShapeOK s.taskData := by
  induction h with
  | base active archived => intro e he; simp at he
  | viewInit pid s _ ih => exact shapeOK_ensure pid s ih
  | stepToggleSubtask today pid ti si s s' _ hok ih =>
    exact shapeOK_toggleSubtask today pid ti si s s' ih hok
  | stepToggleSubSubtask today pid ti si ssi s s' _ hok ih =>
    exact shapeOK_toggleSubSubtask today pid ti si ssi s s' ih hok
  | stepUpdateInput today pid ti si ssi v s s' _ hok ih =>
    exact shapeOK_updateInput today pid ti si ssi v s s' ih hok
  | stepMarkAll q fid s _ ih => exact markAll_taskData q fid s ih
  | stepRestore idx s _ ih => rw [restorePatient_taskData]; exact ih

end ShapeLemmas

section InputInvLemmas

theorem leafInv_template : ∀ t ∈ initializePatientTasks, ∀ st ∈ t.subtasks,
    ∀ l ∈ st.subSubtasks.getD [], leafInv l = true := by
  decide

theorem leafInv_updateLeaf (leaf : SubSubtask) (v : String) :
    leafInv { leaf with value := some v, complete := hasContent v } = true := by
  unfold leafInv
  dsimp only
  split
  · simp
  · rfl

theorem inputInv_insert (store : List (String × List Task)) (k : String) (l : List Task)
    (h : InputInv store)
    (hl : ∀ t ∈ l, ∀ st ∈ t.subtasks, ∀ x ∈ st.subSubtasks.getD [], leafInv x = true) :
    InputInv (storeInsert store k l) := by
  intro e he t ht st hst x hx
  rcases mem_storeInsert store k l e he with h1 | h1
  · exact h e h1 t ht st hst x hx
  · subst h1
    exact hl t ht st hst x hx

theorem inputInv_ensure (pid : String) (s : AppState) (h : InputInv s.taskData) :
    InputInv (ensureTasks pid s).taskData := by
  unfold ensureTasks
  split
  · exact h
  · exact inputInv_insert s.taskData pid _ h leafInv_template

/-- Replacing the task at one index preserves the free-text invariant when
the new task's leaves all satisfy it. -/
theorem inputInv_setTask (store : List (String × List Task)) (pid : String)
    (tasks : List Task) (ti : Nat) (task2 : Task)
    (h : InputInv store) (hl : storeLookup store pid = some tasks)
    (h2 : ∀ st ∈ task2.subtasks, ∀ x ∈ st.subSubtasks.getD [], leafInv x = true) :
    InputInv (storeInsert store pid (tasks.set ti task2)) := by
  rcases storeLookup_mem store pid tasks hl with ⟨e, he, he2⟩
  apply inputInv_insert store pid _ h
  intro t ht st hst x hx
  rcases List.mem_or_eq_of_mem_set ht with h1 | h1
  · exact h e he t (by rw [he2]; exact h1) st hst x hx
  · subst h1
    exact h2 st hst x hx

theorem inputInv_toggleSubtask (today pid : String) (ti si : Nat) (s s' : AppState)
    (h : InputInv s.taskData) (hok : toggleSubtask today pid ti si s = .ok s') :
    InputInv s'.taskData := by
  rcases toggleSubtask_ok_inv today pid ti si s s' hok with ⟨tasks, task, st, hl, hg, hst, hs'⟩
  subst hs'
  rw [archiveCheck_taskData]
  rcases storeLookup_mem s.taskData pid tasks hl with ⟨e, he, he2⟩
  have htask : ∀ st0 ∈ task.subtasks, ∀ x ∈ st0.subSubtasks.getD [], leafInv x = true :=
    h e he task (by rw [he2]; exact List.getElem?_mem hg)
  apply inputInv_setTask s.taskData pid tasks ti _ h hl
  intro st0 hst0 x hx
  rcases List.mem_or_eq_of_mem_set hst0 with h1 | h1
  · exact htask st0 h1 x hx
  · subst h1
    exact htask st (List.getElem?_mem hst) x hx

theorem inputInv_updateInput (today pid : String) (ti si ssi : Nat) (v : String)
    (s s' : AppState) (h : InputInv s.taskData)
    (hok : updateSubSubtaskInput today pid ti si ssi v s = .ok s') :
    InputInv s'.taskData := by
  rcases updateSubSubtaskInput_ok_inv today pid ti si ssi v s s' hok with
    ⟨tasks, task, st, leaves, leaf, hl, hg, hst, hlv, hlf, hs'⟩
  subst hs'
  rw [archiveCheck_taskData]
  rcases storeLookup_mem s.taskData pid tasks hl with ⟨e, he, he2⟩
  have htask : ∀ st0 ∈ task.subtasks, ∀ x ∈ st0.subSubtasks.getD [], leafInv x = true :=
    h e he task (by rw [he2]; exact List.getElem?_mem hg)
  apply inputInv_setTask s.taskData pid tasks ti _ h hl
  intro st0 hst0 x hx
  rcases List.mem_or_eq_of_mem_set hst0 with h1 | h1
  · exact htask st0 h1 x hx
  · subst h1
    have hx2 : x ∈ leaves.set ssi
        { leaf with value := some v, complete := hasContent v } := hx
    rcases List.mem_or_eq_of_mem_set hx2 with h2 | h2
    · exact htask st (List.getElem?_mem hst) x (by rw [hlv]; exact h2)
    · subst h2
      exact leafInv_updateLeaf leaf v

theorem inputInv_restore (idx : Nat) (s : AppState) (h : InputInv s.taskData) :
    InputInv (restorePatient idx s).taskData := by
  rw [restorePatient_taskData]
  exact h

/-- Every state reachable without markAllTasksComplete and toggleSubSubtask
keeps every free-text leaf's flag equal to non-emptiness of its trimmed
stored value. -/
theorem inputReachable_inputInv (s : AppState) (h : InputReachable s) :
    InputInv s.taskData := by
  induction h with
  | base active archived => intro e he; simp at he
  | viewInit pid s _ ih => exact inputInv_ensure pid s ih
  | stepToggleSubtask today pid ti si s s' _ hok ih =>
    exact inputInv_toggleSubtask today pid ti si s s' ih hok
  | stepUpdateInput today pid ti si ssi v s s' _ hok ih =>
    exact inputInv_updateInput today pid ti si ssi v s s' ih hok
  | stepRestore idx s _ ih => exact inputInv_restore idx s ih

end InputInvLemmas

section EquivalenceLemmas

/-- The invoice branch shared by the three mutation-site recounts agrees with
the calculateProgress invoice branch whenever the invoice task has its two
template subtasks. -/
theorem siteInvoice_eq_calc (t : Task) (hid : (t.id == "invoice") = true)
    (hlen : t.subtasks.length = 2) :
    ((if invoiceSent t && (invoicePaidQB t || invoicePaidCheck t) then t.subtasks.length
      else if invoiceSent t then 1 else 0 : Nat), t.subtasks.length) = countsCalc t := by
  unfold countsCalc
  rw [if_pos hid, hlen]
  cases hs : invoiceSent t
  · simp
  · cases hp : invoicePaidQB t || invoicePaidCheck t
    · simp [hp]
    · simp [hp]

theorem countsAtToggleSubtask_eq_calc (t : Task) (h : shapeTask t = true) :
    countsAtToggleSubtask t = countsCalc t := by
  unfold countsAtToggleSubtask
  by_cases hid : (t.id == "invoice") = true
  · rw [if_pos hid]
    unfold shapeTask at h
    rw [if_pos hid] at h
    exact siteInvoice_eq_calc t hid (by simpa using h)
  · rw [if_neg hid]
    unfold countsCalc
    rw [if_neg hid]

theorem countsAtToggleSubSubtask_eq_calc (t : Task) (h : shapeTask t = true)
    (hflag : ∀ x ∈ t.subtasks, x.complete = effComplete x) :
    countsAtToggleSubSubtask t = countsCalc t := by
  unfold countsAtToggleSubSubtask
  by_cases hid : (t.id == "invoice") = true
  · rw [if_pos hid]
    unfold shapeTask at h
    rw [if_pos hid] at h
    exact siteInvoice_eq_calc t hid (by simpa using h)
  · rw [if_neg hid]
    unfold countsCalc
    rw [if_neg hid]
    exact flagCounts_eq_standardCounts t.subtasks hflag

theorem countsAtUpdateInput_eq_calc (t : Task) (h : shapeTask t = true)
    (hflag : ∀ x ∈ t.subtasks, x.complete = effComplete x) :
    countsAtUpdateInput t = countsCalc t := by
  unfold countsAtUpdateInput
  by_cases hid : (t.id == "invoice") = true
  · rw [if_pos hid]
    unfold shapeTask at h
    rw [if_pos hid] at h
    exact siteInvoice_eq_calc t hid (by simpa using h)
  · rw [if_neg hid]
    unfold countsCalc
    rw [if_neg hid]
    exact flagCounts_eq_standardCounts t.subtasks hflag

/-- In a subtask list whose shape allows at most one subSubtasks carrier, if
the carrier at one index has its flag equal to its recomputed completion,
then every subtask's flag equals its effective completion. -/
theorem flag_eq_eff_of_unique (l : List Subtask) (si : Nat) (st2 : Subtask)
    (hget : l[si]? = some st2)
    (hcount : l.countP hasSubs ≤ 1)
    (hsubs2 : hasSubs st2 = true)
    (heff2 : st2.complete = effComplete st2) :
    ∀ x ∈ l, x.complete = effComplete x := by
  intro x hx
  by_cases hxe : x = st2
  · subst hxe
    exact heff2
  · have hmem2 : st2 ∈ l := List.getElem?_mem hget
    have hfs : hasSubs x = false := by
      cases hxs : hasSubs x
      · rfl
      · exact absurd (two_le_countP hasSubs l x st2 hx hmem2 hxe hxs hsubs2) (by omega)
    unfold effComplete
    rw [hfs]
    simp

/-- The flag computed by the shared recompute tail (completed equals total)
is exactly the effective completion of the updated subtask. -/
theorem recomputedSub_flag_eq_eff (st : Subtask) (leaves2 : List SubSubtask)
    (hne : 0 < leaves2.length) :
    (recomputedSub st leaves2).complete = effComplete (recomputedSub st leaves2) := by
  unfold recomputedSub effComplete hasSubs
  dsimp only
  rw [countP_eq_length_beq]
  simp [hne]

theorem hasSubs_recomputedSub (st : Subtask) (leaves2 : List SubSubtask)
    (hne : 0 < leaves2.length) : hasSubs (recomputedSub st leaves2) = true := by
  unfold recomputedSub hasSubs
  dsimp only
  simp [hne]

theorem effComplete_set_flag (st : Subtask) (b : Bool) (hsubs : hasSubs st = true) :
    effComplete { st with complete := b } = effComplete st := by
  unfold effComplete
  have h2 : hasSubs { st with complete := b } = hasSubs st := rfl
  rw [h2, hsubs]
  simp

theorem calculateProgress_archiveCheck (today pid x : String) (s : AppState) :
    calculateProgress (archiveCheck today pid s) x = calculateProgress s x := by
  unfold calculateProgress
  rw [archiveCheck_taskData]

theorem calculateProgress_withTree (s : AppState) (pid : String) (tasks' : List Task) :
    calculateProgress (withTree s pid tasks') pid = progressOfTasks tasks' := by
  unfold calculateProgress withTree
  dsimp only
  rw [storeLookup_insert_self]

theorem lt_of_getElem?_some {α : Type} (l : List α) (i : Nat) (a : α)
    (h : l[i]? = some a) : i < l.length := by
  rcases List.getElem?_eq_some.mp h with ⟨hlt, _⟩
  exact hlt

/-- Navigation through the five lookup levels, given each level's result. -/
theorem leafAt_of_parts (store : List (String × List Task)) (pid : String)
    (ti si ssi : Nat) (tasks : List Task) (task : Task) (st : Subtask)
    (leaves : List SubSubtask) (leaf : SubSubtask)
    (hl : storeLookup store pid = some tasks) (hg : tasks[ti]? = some task)
    (hst : task.subtasks[si]? = some st) (hlv : st.subSubtasks = some leaves)
    (hlf : leaves[ssi]? = some leaf) : leafAt store pid ti si ssi = some leaf := by
  simp [leafAt, hl, hg, hst, hlv, hlf]

/-- The leaf visible after the shared recompute tail of toggleSubSubtask and
updateSubSubtaskInput is exactly the freshly written leaf. -/
theorem leafAt_after_set (store : List (String × List Task)) (pid : String)
    (ti si ssi : Nat) (tasks : List Task) (task : Task) (st : Subtask)
    (leaves : List SubSubtask) (leaf2 : SubSubtask)
    (hg : tasks[ti]? = some task) (hst : task.subtasks[si]? = some st)
    (hssi : ssi < leaves.length) :
    leafAt (storeInsert store pid
        (tasks.set ti (setSubtask task si (recomputedSub st (leaves.set ssi leaf2)))))
      pid ti si ssi = some leaf2 := by
  have hti : ti < tasks.length := lt_of_getElem?_some tasks ti task hg
  have hsi : si < task.subtasks.length := lt_of_getElem?_some task.subtasks si st hst
  simp [leafAt, storeLookup_insert_self, setSubtask, recomputedSub,
    getElem?_set_self_of_lt tasks ti _ hti,
    getElem?_set_self_of_lt task.subtasks si _ hsi,
    getElem?_set_self_of_lt leaves ssi _ hssi]

theorem countsCalc_set_flag (task : Task) (si : Nat) (st : Subtask) (b : Bool)
    (hid : task.id ≠ "invoice") (hget : task.subtasks[si]? = some st)
    (hsubs : hasSubs st = true) :
    countsCalc (setSubtask task si { st with complete := b }) = countsCalc task := by
  unfold countsCalc setSubtask
  dsimp only
  rw [if_neg (by simpa using hid), if_neg (by simpa using hid)]
  rw [standardCounts_eq, standardCounts_eq, List.length_set]
  have hc := countP_set_eq effComplete task.subtasks si { st with complete := b } st hget
    (effComplete_set_flag st b hsubs)
  rw [hc]

end EquivalenceLemmas

section Claims

/-- Claim-side effective completion, following the words of the spec: a
subtask with a non-empty sub-subtask list counts iff every sub-subtask is
complete; a subtask without sub-subtasks counts per its own flag. -/
def effCompleteSpec (st : Subtask) : Bool :=
  (decide (st.subSubtasks.getD [] ≠ []) &&
     (st.subSubtasks.getD []).all (fun l => l.complete)) ||
  (decide (st.subSubtasks.getD [] = []) && st.complete)

theorem effComplete_eq_spec (st : Subtask) : effComplete st = effCompleteSpec st := by
  unfold effComplete effCompleteSpec hasSubs
  cases hs : st.subSubtasks with
  | none => simp
  | some l =>
    cases l with
    | nil => simp
    | cons a rest => simp

/-- A fixed sample task used by witnesses. -/
def wrTask : Task :=
  ⟨"wr", "Send Adobe Forms",
    [withSubs "Written Request" [cbLeaf "Completed by Patient"],
     plainSub "Payment Schedule Form"]⟩

/-- C2: for every task whose id is not invoice, calculateProgress counts each
subtask as one total item, completed exactly when it either has a non-empty
sub-subtask list all of whose members are complete, or has no sub-subtasks
and its own flag is set. -/
theorem c2_noninvoice_counting (t : Task) (h : t.id ≠ "invoice") :
    countsCalc t = (t.subtasks.countP effCompleteSpec, t.subtasks.length) := by
  unfold countsCalc
  rw [if_neg (by simpa using h), standardCounts_eq]
  have hc : t.subtasks.countP effComplete = t.subtasks.countP effCompleteSpec :=
    List.countP_congr (fun x _ => by rw [effComplete_eq_spec x])
  rw [hc]

theorem c2_noninvoice_counting_witness :
    wrTask.id ≠ "invoice" ∧
    countsCalc wrTask = (wrTask.subtasks.countP effCompleteSpec, wrTask.subtasks.length) :=
  ⟨by decide, c2_noninvoice_counting wrTask (by decide)⟩

/-- A fixed initial sample state used by witnesses: one patient with the
fresh template tree. -/
def sampleState0 : AppState := ⟨[("p1", initializePatientTasks)], [], [], []⟩

/-- C9: calculateProgress stays within 0..100 (the completed count never
exceeds the total), equals the exact half-up rounding of
100*completed/total when the total is positive, and is 0 for an unknown
patient and when the total is 0, never dividing by zero. -/
theorem c9_progress_range (s : AppState) (pid : String) :
    calculateProgress s pid ≤ 100 ∧
    (∀ tasks, storeLookup s.taskData pid = some tasks →
      (0 < (sumCounts tasks).2 →
        calculateProgress s pid = jsRound100 (sumCounts tasks).1 (sumCounts tasks).2) ∧
      ((sumCounts tasks).2 = 0 → calculateProgress s pid = 0)) ∧
    (storeLookup s.taskData pid = none → calculateProgress s pid = 0) := by
  refine ⟨?_, ?_, ?_⟩
  · unfold calculateProgress
    cases hl : storeLookup s.taskData pid with
    | none => dsimp only; omega
    | some tl => exact progressOfTasks_le tl
  · intro tasks ht
    unfold calculateProgress
    rw [ht]
    dsimp only
    unfold progressOfTasks
    dsimp only
    constructor
    · intro hp
      rw [if_pos hp]
    · intro hz
      rw [if_neg (by omega)]
  · intro h
    unfold calculateProgress
    rw [h]

theorem c9_progress_range_witness :
    calculateProgress sampleState0 "p1" ≤ 100 ∧
    calculateProgress sampleState0 "p1" =
      jsRound100 (sumCounts initializePatientTasks).1 (sumCounts initializePatientTasks).2 :=
  ⟨(c9_progress_range sampleState0 "p1").1,
   ((c9_progress_range sampleState0 "p1").2.1 initializePatientTasks (by rfl)).1 (by decide)⟩

/-- C10: for a non-invoice task, the percentage computed by
calculateProgress ignores the stored flag of any subtask that carries a
non-empty subSubtasks list: writing any value into that flag leaves the
percentage unchanged, and consequently a successful toggleSubtask on such a
subtask never changes calculateProgress. -/
theorem c10_parent_flag_irrelevant (s : AppState) (pid : String) (ti si : Nat)
    (tasks : List Task) (task : Task) (st : Subtask)
    (hl : storeLookup s.taskData pid = some tasks)
    (hg : tasks[ti]? = some task)
    (hst : task.subtasks[si]? = some st)
    (hid : task.id ≠ "invoice")
    (hsubs : hasSubs st = true) :
    (∀ b, progressOfTasks (tasks.set ti (setSubtask task si { st with complete := b })) =
       progressOfTasks tasks) ∧
    (∀ today s', toggleSubtask today pid ti si s = .ok s' →
       calculateProgress s' pid = calculateProgress s pid) := by
  have hset : ∀ b : Bool,
      progressOfTasks (tasks.set ti (setSubtask task si { st with complete := b })) =
        progressOfTasks tasks := by
    intro b
    have hsum := sumCounts_set tasks ti (setSubtask task si { st with complete := b }) task
      hg (countsCalc_set_flag task si st b hid hst hsubs)
    unfold progressOfTasks
    rw [hsum]
  refine ⟨hset, ?_⟩
  intro today s' hok
  rcases toggleSubtask_ok_inv today pid ti si s s' hok with
    ⟨tasks0, task0, st0, hl0, hg0, hst0, hs'⟩
  rw [hl0] at hl
  injection hl with hl
  subst hl
  rw [hg0] at hg
  injection hg with hg
  subst hg
  rw [hst0] at hst
  injection hst with hst
  subst hst
  subst hs'
  rw [calculateProgress_archiveCheck, calculateProgress_withTree]
  have hcp : calculateProgress s pid = progressOfTasks tasks0 := by
    unfold calculateProgress
    rw [hl0]
  rw [hcp]
  exact hset (!st0.complete)

theorem c10_parent_flag_irrelevant_witness :
    progressOfTasks (initializePatientTasks.set 0
      (setSubtask wrTask 0
        { withSubs "Written Request" [cbLeaf "Completed by Patient"] with complete := true })) =
      progressOfTasks initializePatientTasks :=
  (c10_parent_flag_irrelevant sampleState0 "p1" 0 0 initializePatientTasks wrTask
    (withSubs "Written Request" [cbLeaf "Completed by Patient"])
    (by rfl) (by rfl) (by rfl) (by decide) (by decide)).1 true

/-- A successful updateSubSubtaskInput rewrites exactly the addressed leaf:
old leaf in, new leaf out. -/
theorem update_leafAt (today pid : String) (ti si ssi : Nat) (v : String)
    (s s' : AppState) (h : updateSubSubtaskInput today pid ti si ssi v s = .ok s') :
    ∃ leaf, leafAt s.taskData pid ti si ssi = some leaf ∧
      leafAt s'.taskData pid ti si ssi =
        some { leaf with value := some v, complete := hasContent v } := by
  rcases updateSubSubtaskInput_ok_inv today pid ti si ssi v s s' h with
    ⟨tasks, task, st, leaves, leaf, hl, hg, hst, hlv, hlf, hs'⟩
  have hssi := lt_of_getElem?_some leaves ssi leaf hlf
  subst hs'
  refine ⟨leaf, leafAt_of_parts s.taskData pid ti si ssi tasks task st leaves leaf
    hl hg hst hlv hlf, ?_⟩
  rw [archiveCheck_taskData]
  exact leafAt_after_set s.taskData pid ti si ssi tasks task st leaves _ hg hst hssi

/-- After one successful updateSubSubtaskInput, a second call at the same
address cannot throw. -/
theorem update_no_throw_after (today pid : String) (ti si ssi : Nat) (v v2 : String)
    (s s' : AppState) (h : updateSubSubtaskInput today pid ti si ssi v s = .ok s') :
    threw (updateSubSubtaskInput today pid ti si ssi v2 s') = false := by
  rcases updateSubSubtaskInput_ok_inv today pid ti si ssi v s s' h with
    ⟨tasks, task, st, leaves, leaf, hl, hg, hst, hlv, hlf, hs'⟩
  have hti := lt_of_getElem?_some tasks ti task hg
  have hsi := lt_of_getElem?_some task.subtasks si st hst
  have hssi := lt_of_getElem?_some leaves ssi leaf hlf
  subst hs'
  simp only [updateSubSubtaskInput, archiveCheck_taskData, withTree, storeLookup_insert_self,
    getElem?_set_self_of_lt tasks ti _ hti, setSubtask,
    getElem?_set_self_of_lt task.subtasks si _ hsi, recomputedSub,
    getElem?_set_self_of_lt leaves ssi _ hssi, threw]

/-- C8: updateSubSubtaskInput stores the raw string as the leaf value and
derives the completion flag from trimmed non-emptiness, regardless of the
leaf's previous contents; a follow-up update with the empty string never
throws and always leaves the leaf incomplete. -/
theorem c8_update_input_semantics (today pid : String) (ti si ssi : Nat) (v : String)
    (s s' : AppState) (h : updateSubSubtaskInput today pid ti si ssi v s = .ok s') :
    (∀ leaf, leafAt s.taskData pid ti si ssi = some leaf →
       leafAt s'.taskData pid ti si ssi =
         some { leaf with value := some v, complete := hasContent v }) ∧
    threw (updateSubSubtaskInput today pid ti si ssi "" s') = false ∧
    (∀ s'', updateSubSubtaskInput today pid ti si ssi "" s' = .ok s'' →
       (leafAt s''.taskData pid ti si ssi).map (fun l => l.complete) = some false) := by
  refine ⟨?_, update_no_throw_after today pid ti si ssi v "" s s' h, ?_⟩
  · intro leaf0 hleaf0
    rcases update_leafAt today pid ti si ssi v s s' h with ⟨leaf, hin, hout⟩
    rw [hin] at hleaf0
    injection hleaf0 with hleaf0
    subst hleaf0
    exact hout
  · intro s'' hok2
    rcases update_leafAt today pid ti si ssi "" s' s'' hok2 with ⟨leafB, _, hout⟩
    rw [hout]
    rfl

/-- Result extraction with a default, for building concrete witness states. -/
def exceptD (r : Except String AppState) (d : AppState) : AppState :=
  match r with
  | .ok x => x
  | .error _ => d

def c8state1 : AppState :=
  exceptD (updateSubSubtaskInput "d" "p1" 2 0 0 "Dr" sampleState0) sampleState0

theorem c8_update_input_semantics_witness :
    threw (updateSubSubtaskInput "d" "p1" 2 0 0 "" c8state1) = false :=
  (c8_update_input_semantics "d" "p1" 2 0 0 "Dr" sampleState0 c8state1 (by rfl)).2.1

/-- The invoice task of the template, for witnesses. -/
def invoiceTask : Task :=
  ⟨"invoice", "Quickbooks Invoice",
    [plainSub "Sent Invoice",
     withSubs "Payment Received" [cbLeaf "Paid via Quickbooks", cbLeaf "Paid via Check"]]⟩

/-- A reachable state holding one freshly initialized tree. -/
def reachState0 : AppState := ensureTasks "p1" ⟨[], [], [], []⟩

theorem reachState0_reachable : Reachable reachState0 :=
  Reachable.viewInit "p1" ⟨[], [], [], []⟩ (Reachable.base [] [])

/-- C1: in every reachable state, the invoice task of any stored tree
contributes exactly 2 total items, and its completed items are 2 when Sent
Invoice and at least one payment leaf are complete, 1 when only Sent Invoice
is, and 0 whenever Sent Invoice is incomplete, regardless of the payment
flags. -/
theorem c1_invoice_counting (s : AppState) (hr : Reachable s) :
    ∀ e ∈ s.taskData, ∀ t ∈ e.2, t.id = "invoice" →
      countsCalc t =
        ((if invoiceSent t then
            (if invoicePaidQB t || invoicePaidCheck t then 2 else 1)
          else 0), 2) := by
  intro e he t ht hid
  have hshape := reachable_shapeOK s hr e he t ht
  unfold shapeTask at hshape
  rw [if_pos (by simpa using hid)] at hshape
  have hlen : t.subtasks.length = 2 := by simpa using hshape
  unfold countsCalc
  rw [if_pos (by simpa using hid), hlen]

theorem c1_invoice_counting_witness :
    countsCalc invoiceTask =
      ((if invoiceSent invoiceTask then
          (if invoicePaidQB invoiceTask || invoicePaidCheck invoiceTask then 2 else 1)
        else 0), 2) :=
  c1_invoice_counting reachState0 reachState0_reachable
    ("p1", initializePatientTasks) (by decide) invoiceTask (by decide) (by decide)

/-- C6: in every reachable state, after any successful mutation the task
status each mutation site computes for the mutated task agrees with the
status derived from the calculateProgress counting rule on the same
post-mutation tree. -/
theorem c6_status_equivalence (s : AppState) (hr : Reachable s) :
    (∀ today pid ti si s', toggleSubtask today pid ti si s = .ok s' →
       ∀ tasks t, storeLookup s'.taskData pid = some tasks → tasks[ti]? = some t →
         statusOf (countsAtToggleSubtask t) = statusOf (countsCalc t)) ∧
    (∀ today pid ti si ssi s', toggleSubSubtask today pid ti si ssi s = .ok s' →
       ∀ tasks t, storeLookup s'.taskData pid = some tasks → tasks[ti]? = some t →
         statusOf (countsAtToggleSubSubtask t) = statusOf (countsCalc t)) ∧
    (∀ today pid ti si ssi v s', updateSubSubtaskInput today pid ti si ssi v s = .ok s' →
       ∀ tasks t, storeLookup s'.taskData pid = some tasks → tasks[ti]? = some t →
         statusOf (countsAtUpdateInput t) = statusOf (countsCalc t)) := by
  refine ⟨?_, ?_, ?_⟩
  · intro today pid ti si s' hok tasks t hl2 hg2
    have hr' : Reachable s' := Reachable.stepToggleSubtask today pid ti si s s' hr hok
    have hshape : shapeTask t = true := by
      rcases storeLookup_mem s'.taskData pid tasks hl2 with ⟨e, he, he2⟩
      exact reachable_shapeOK s' hr' e he t (by rw [he2]; exact List.getElem?_mem hg2)
    rw [countsAtToggleSubtask_eq_calc t hshape]
  · intro today pid ti si ssi s' hok tasks t hl2 hg2
    have hr' : Reachable s' :=
      Reachable.stepToggleSubSubtask today pid ti si ssi s s' hr hok
    have hshape : shapeTask t = true := by
      rcases storeLookup_mem s'.taskData pid tasks hl2 with ⟨e, he, he2⟩
      exact reachable_shapeOK s' hr' e he t (by rw [he2]; exact List.getElem?_mem hg2)
    rcases toggleSubSubtask_ok_inv today pid ti si ssi s s' hok with
      ⟨tasks0, task, st, leaves, leaf, hl0, hg0, hst0, hlv0, hlf0, hs'⟩
    have hti := lt_of_getElem?_some tasks0 ti task hg0
    have hsi := lt_of_getElem?_some task.subtasks si st hst0
    have hssi := lt_of_getElem?_some leaves ssi leaf hlf0
    subst hs'
    rw [archiveCheck_taskData] at hl2
    have hl2' : storeLookup (storeInsert s.taskData pid
        (tasks0.set ti (setSubtask task si (recomputedSub st
          (leaves.set ssi { leaf with complete := !leaf.complete }))))) pid =
        some tasks := hl2
    rw [storeLookup_insert_self] at hl2'
    injection hl2' with htasks
    subst htasks
    rw [getElem?_set_self_of_lt tasks0 ti _ hti] at hg2
    injection hg2 with ht
    subst ht
    by_cases hid : ((setSubtask task si (recomputedSub st
        (leaves.set ssi { leaf with complete := !leaf.complete }))).id == "invoice") = true
    · unfold countsAtToggleSubSubtask
      rw [if_pos hid]
      unfold shapeTask at hshape
      rw [if_pos hid] at hshape
      rw [siteInvoice_eq_calc _ hid (by simpa using hshape)]
    · have hlen2 : 0 < (leaves.set ssi { leaf with complete := !leaf.complete }).length := by
        rw [List.length_set]
        omega
      have hcount : (task.subtasks.set si (recomputedSub st
          (leaves.set ssi { leaf with complete := !leaf.complete }))).countP hasSubs ≤ 1 := by
        unfold shapeTask at hshape
        rw [if_neg hid] at hshape
        exact of_decide_eq_true hshape
      have hflag := flag_eq_eff_of_unique
        (task.subtasks.set si (recomputedSub st
          (leaves.set ssi { leaf with complete := !leaf.complete })))
        si _ (getElem?_set_self_of_lt task.subtasks si _ hsi) hcount
        (hasSubs_recomputedSub st _ hlen2)
        (recomputedSub_flag_eq_eff st _ hlen2)
      rw [countsAtToggleSubSubtask_eq_calc _ hshape hflag]
  · intro today pid ti si ssi v s' hok tasks t hl2 hg2
    have hr' : Reachable s' :=
      Reachable.stepUpdateInput today pid ti si ssi v s s' hr hok
    have hshape : shapeTask t = true := by
      rcases storeLookup_mem s'.taskData pid tasks hl2 with ⟨e, he, he2⟩
      exact reachable_shapeOK s' hr' e he t (by rw [he2]; exact List.getElem?_mem hg2)
    rcases updateSubSubtaskInput_ok_inv today pid ti si ssi v s s' hok with
      ⟨tasks0, task, st, leaves, leaf, hl0, hg0, hst0, hlv0, hlf0, hs'⟩
    have hti := lt_of_getElem?_some tasks0 ti task hg0
    have hsi := lt_of_getElem?_some task.subtasks si st hst0
    have hssi := lt_of_getElem?_some leaves ssi leaf hlf0
    subst hs'
    rw [archiveCheck_taskData] at hl2
    have hl2' : storeLookup (storeInsert s.taskData pid
        (tasks0.set ti (setSubtask task si (recomputedSub st
          (leaves.set ssi { leaf with value := some v, complete := hasContent v }))))) pid =
        some tasks := hl2
    rw [storeLookup_insert_self] at hl2'
    injection hl2' with htasks
    subst htasks
    rw [getElem?_set_self_of_lt tasks0 ti _ hti] at hg2
    injection hg2 with ht
    subst ht
    by_cases hid : ((setSubtask task si (recomputedSub st
        (leaves.set ssi
          { leaf with value := some v, complete := hasContent v }))).id == "invoice") = true
    · unfold countsAtUpdateInput
      rw [if_pos hid]
      unfold shapeTask at hshape
      rw [if_pos hid] at hshape
      rw [siteInvoice_eq_calc _ hid (by simpa using hshape)]
    · have hlen2 : 0 < (leaves.set ssi
          { leaf with value := some v, complete := hasContent v }).length := by
        rw [List.length_set]
        omega
      have hcount : (task.subtasks.set si (recomputedSub st
          (leaves.set ssi
            { leaf with value := some v, complete := hasContent v }))).countP hasSubs ≤ 1 := by
        unfold shapeTask at hshape
        rw [if_neg hid] at hshape
        exact of_decide_eq_true hshape
      have hflag := flag_eq_eff_of_unique
        (task.subtasks.set si (recomputedSub st
          (leaves.set ssi { leaf with value := some v, complete := hasContent v })))
        si _ (getElem?_set_self_of_lt task.subtasks si _ hsi) hcount
        (hasSubs_recomputedSub st _ hlen2)
        (recomputedSub_flag_eq_eff st _ hlen2)
      rw [countsAtUpdateInput_eq_calc _ hshape hflag]

def c6state1 : AppState := exceptD (toggleSubtask "d" "p1" 0 0 reachState0) reachState0

def c6task : Task :=
  setSubtask wrTask 0 (toggledSub (withSubs "Written Request" [cbLeaf "Completed by Patient"]))

theorem c6_status_equivalence_witness :
    statusOf (countsAtToggleSubtask c6task) = statusOf (countsCalc c6task) :=
  (c6_status_equivalence reachState0 reachState0_reachable).1
    "d" "p1" 0 0 c6state1 (by rfl)
    (initializePatientTasks.set 0 c6task) c6task (by rfl) (by rfl)

/-- The records task of the template, for witnesses. -/
def recordsTask : Task :=
  ⟨"records", "Medical Records",
    [withSubs "Request Medical Records"
       [inputLeaf "Hospice/Doctor Name", inputLeaf "Request Method (Email/Doximity)"],
     plainSub "Medical Records Received"]⟩

theorem reachState0_inputReachable : InputReachable reachState0 :=
  InputReachable.viewInit "p1" ⟨[], [], [], []⟩ (InputReachable.base [] [])

/-- C7 (amended): in every state reachable without markAllTasksComplete and
without toggleSubSubtask, a free-text leaf is complete exactly when its
stored value holds a non-whitespace character (the trimmed value is
non-empty). -/
theorem c7_input_invariant (s : AppState) (h : InputReachable s) :
    ∀ e ∈ s.taskData, ∀ t ∈ e.2, ∀ st ∈ t.subtasks, ∀ l ∈ st.subSubtasks.getD [],
      l.type = some "input" →
      (l.complete = true ↔ hasContent (l.value.getD "") = true) := by
  intro e he t ht st hst l hl htype
  have hinv := inputReachable_inputInv s h e he t ht st hst l hl
  unfold leafInv at hinv
  rw [if_pos (by simpa using htype)] at hinv
  rw [eq_of_beq hinv]

theorem c7_input_invariant_witness :
    (inputLeaf "Hospice/Doctor Name").complete = true ↔
      hasContent ((inputLeaf "Hospice/Doctor Name").value.getD "") = true :=
  c7_input_invariant reachState0 reachState0_inputReachable
    ("p1", initializePatientTasks) (by decide)
    recordsTask (by decide)
    (withSubs "Request Medical Records"
      [inputLeaf "Hospice/Doctor Name", inputLeaf "Request Method (Email/Doximity)"])
    (by decide)
    (inputLeaf "Hospice/Doctor Name") (by decide) (by decide)

/-- Sample patient and state with a matching active patient, for the
mark-all-complete paths. -/
def adamPatient : Patient :=
  ⟨some "p1", some "Adam Jones", some "Adam Jones", none, none, none, none⟩

def adamState0 : AppState := ⟨[("p1", initializePatientTasks)], [adamPatient], [], []⟩

def c7markedState : AppState := markAllTasksComplete "adam" "fb" adamState0

def c7blankState : AppState :=
  exceptD (updateSubSubtaskInput "d" "p1" 2 0 0 " " sampleState0) sampleState0

/-- C7 counterexample: the claim as stated fails in reachable states.  After
markAllTasksComplete the free-text leaf Hospice/Doctor Name is complete with
the empty stored value, and after updateSubSubtaskInput with a single blank
the stored value is non-empty while the leaf is incomplete. -/
theorem c7_counterexample :
    leafAt c7markedState.taskData "p1" 2 0 0 =
      some ⟨"Hospice/Doctor Name", some "input", some "", true⟩ ∧
    leafAt c7blankState.taskData "p1" 2 0 0 =
      some ⟨"Hospice/Doctor Name", some "input", some " ", false⟩ := by
  constructor
  · rfl
  · rfl

/-- C5 counterexample: toggleSubtask with an unknown patient id throws a
TypeError (an uncaught hard failure) instead of aborting with a notice. -/
theorem c5_counterexample :
    toggleSubtask "2025-01-01" "ghost" 0 0 ⟨[], [], [], []⟩ =
      .error "TypeError: taskCompletionData[patientId] is undefined" := by
  rfl

/-- C5 (amended): markAllTasksComplete treats a name-lookup miss as a no-op
plus a user-visible notice and never throws; toggleSubtask, toggleSubSubtask
and updateSubSubtaskInput instead throw an uncaught TypeError, with no
notice, exactly when the navigation to their target fails: an unknown
patient id, an out-of-range task or subtask index, a missing subSubtasks
list, or an out-of-range sub-subtask index (the throw happens while reading,
before any mutation). -/
theorem c5_lookup_miss_behavior :
    (∀ q fid s, s.activePatients.find? (nameMatches q) = none →
       markAllTasksComplete q fid s =
         { s with notices := s.notices ++
             ["Patient \"" ++ q ++ "\" not found in active patients"] }) ∧
    (∀ today pid ti si s,
       threw (toggleSubtask today pid ti si s) = (subtaskAt s.taskData pid ti si).isNone) ∧
    (∀ today pid ti si ssi s,
       threw (toggleSubSubtask today pid ti si ssi s) =
         (leafAt s.taskData pid ti si ssi).isNone) ∧
    (∀ today pid ti si ssi v s,
       threw (updateSubSubtaskInput today pid ti si ssi v s) =
         (leafAt s.taskData pid ti si ssi).isNone) := by
  refine ⟨?_, ?_, ?_, ?_⟩
  · intro q fid s h
    unfold markAllTasksComplete
    rw [h]
  · intro today pid ti si s
    unfold toggleSubtask subtaskAt
    cases hl : storeLookup s.taskData pid with
    | none => rfl
    | some tasks =>
      dsimp only [Option.bind]
      cases hg : tasks[ti]? with
      | none => rfl
      | some task =>
        dsimp only [Option.bind]
        cases hst : task.subtasks[si]? with
        | none => rfl
        | some st => rfl
  · intro today pid ti si ssi s
    unfold toggleSubSubtask leafAt
    cases hl : storeLookup s.taskData pid with
    | none => rfl
    | some tasks =>
      dsimp only [Option.bind]
      cases hg : tasks[ti]? with
      | none => rfl
      | some task =>
        dsimp only [Option.bind]
        cases hst : task.subtasks[si]? with
        | none => rfl
        | some st =>
          dsimp only [Option.bind]
          cases hlv : st.subSubtasks with
          | none => rfl
          | some leaves =>
            dsimp only [Option.bind]
            cases hlf : leaves[ssi]? with
            | none => rfl
            | some leaf => rfl
  · intro today pid ti si ssi v s
    unfold updateSubSubtaskInput leafAt
    cases hl : storeLookup s.taskData pid with
    | none => rfl
    | some tasks =>
      dsimp only [Option.bind]
      cases hg : tasks[ti]? with
      | none => rfl
      | some task =>
        dsimp only [Option.bind]
        cases hst : task.subtasks[si]? with
        | none => rfl
        | some st =>
          dsimp only [Option.bind]
          cases hlv : st.subSubtasks with
          | none => rfl
          | some leaves =>
            dsimp only [Option.bind]
            cases hlf : leaves[ssi]? with
            | none => rfl
            | some leaf => rfl

theorem c5_lookup_miss_behavior_witness :
    (markAllTasksComplete "zzz" "fb" adamState0 =
      { adamState0 with notices := adamState0.notices ++
          ["Patient \"zzz\" not found in active patients"] }) ∧
    threw (toggleSubtask "d" "p1" 99 0 adamState0) =
      (subtaskAt adamState0.taskData "p1" 99 0).isNone ∧
    threw (toggleSubtask "d" "p1" 0 99 adamState0) =
      (subtaskAt adamState0.taskData "p1" 0 99).isNone ∧
    threw (toggleSubSubtask "d" "p1" 0 0 99 adamState0) =
      (leafAt adamState0.taskData "p1" 0 0 99).isNone :=
  ⟨c5_lookup_miss_behavior.1 "zzz" "fb" adamState0 (by rfl),
   c5_lookup_miss_behavior.2.1 "d" "p1" 99 0 adamState0,
   c5_lookup_miss_behavior.2.1 "d" "p1" 0 99 adamState0,
   c5_lookup_miss_behavior.2.2.1 "d" "p1" 0 0 99 adamState0⟩

/-- The states of the toggle-to-completion story: all tasks complete, one
subtask toggled off, then toggled back on (which reaches 100 percent and
triggers the auto-archive). -/
def allCompleteState : AppState :=
  ⟨[("p1", initializePatientTasks.map markTaskComplete)], [adamPatient], [], []⟩

def almostState : AppState :=
  exceptD (toggleSubtask "d1" "p1" 10 1 allCompleteState) allCompleteState

def archivedState : AppState :=
  exceptD (toggleSubtask "2025-01-01" "p1" 10 1 almostState) almostState

/-- C3 counterexample: markAllTasksComplete leaves a 100-percent patient in
the active collection with nothing archived, and the toggle path that does
auto-archive keeps the task-completion entry in the map instead of deleting
it. -/
theorem c3_counterexample :
    calculateProgress c7markedState "p1" = 100 ∧
    c7markedState.activePatients = [adamPatient] ∧
    c7markedState.archivedPatients = [] ∧
    calculateProgress archivedState "p1" = 100 ∧
    archivedState.activePatients = [] ∧
    archivedState.archivedPatients =
      [{ adamPatient with archivedDate := some "2025-01-01",
                          archivedBy := some "Auto-Archive (100% Complete)",
                          archivedReason := some "All tasks completed" }] ∧
    (storeLookup archivedState.taskData "p1").isSome = true := by
  refine ⟨?_, ?_, ?_, ?_, ?_, ?_, ?_⟩ <;> rfl

theorem archiveCheck_spec (today pid : String) (s2 : AppState)
    (h100 : calculateProgress s2 pid = 100)
    (i : Nat) (p : Patient)
    (hidx : s2.activePatients.findIdx? (fun x => x.id == some pid) = some i)
    (hget : s2.activePatients[i]? = some p) :
    (archiveCheck today pid s2).activePatients = s2.activePatients.eraseIdx i ∧
    (archiveCheck today pid s2).archivedPatients = s2.archivedPatients ++
      [{ p with archivedDate := some today,
                archivedBy := some "Auto-Archive (100% Complete)",
                archivedReason := some "All tasks completed" }] := by
  unfold archiveCheck
  rw [if_pos (by rw [h100]; rfl)]
  unfold autoArchivePatient
  rw [hidx]
  dsimp only
  rw [hget]
  exact ⟨rfl, rfl⟩

/-- C3 (amended): a successful toggleSubtask, toggleSubSubtask or
updateSubSubtaskInput never deletes the patient's task-completion entry;
when the resulting progress is 100 and the patient id occurs in the active
collection, the record moves (after the display delay) to the archived
collection stamped with the archive date, the auto-archive marker and the
reason; and markAllTasksComplete never moves any patient between the
collections, even at 100 percent. -/
theorem c3_auto_archive_behavior :
    (∀ today pid ti si s s', toggleSubtask today pid ti si s = .ok s' →
       (storeLookup s'.taskData pid).isSome = true ∧
       (calculateProgress s' pid = 100 →
         ∀ i p, s.activePatients.findIdx? (fun x => x.id == some pid) = some i →
           s.activePatients[i]? = some p →
           s'.activePatients = s.activePatients.eraseIdx i ∧
           s'.archivedPatients = s.archivedPatients ++
             [{ p with archivedDate := some today,
                       archivedBy := some "Auto-Archive (100% Complete)",
                       archivedReason := some "All tasks completed" }])) ∧
    (∀ today pid ti si ssi s s', toggleSubSubtask today pid ti si ssi s = .ok s' →
       (storeLookup s'.taskData pid).isSome = true ∧
       (calculateProgress s' pid = 100 →
         ∀ i p, s.activePatients.findIdx? (fun x => x.id == some pid) = some i →
           s.activePatients[i]? = some p →
           s'.activePatients = s.activePatients.eraseIdx i ∧
           s'.archivedPatients = s.archivedPatients ++
             [{ p with archivedDate := some today,
                       archivedBy := some "Auto-Archive (100% Complete)",
                       archivedReason := some "All tasks completed" }])) ∧
    (∀ today pid ti si ssi v s s', updateSubSubtaskInput today pid ti si ssi v s = .ok s' →
       (storeLookup s'.taskData pid).isSome = true ∧
       (calculateProgress s' pid = 100 →
         ∀ i p, s.activePatients.findIdx? (fun x => x.id == some pid) = some i →
           s.activePatients[i]? = some p →
           s'.activePatients = s.activePatients.eraseIdx i ∧
           s'.archivedPatients = s.archivedPatients ++
             [{ p with archivedDate := some today,
                       archivedBy := some "Auto-Archive (100% Complete)",
                       archivedReason := some "All tasks completed" }])) ∧
    (∀ q fid s, (markAllTasksComplete q fid s).activePatients = s.activePatients ∧
       (markAllTasksComplete q fid s).archivedPatients = s.archivedPatients) := by
  have main : ∀ today pid (s : AppState) (tasks2 : List Task),
      (storeLookup (archiveCheck today pid (withTree s pid tasks2)).taskData pid).isSome
          = true ∧
      (calculateProgress (archiveCheck today pid (withTree s pid tasks2)) pid = 100 →
        ∀ i p, s.activePatients.findIdx? (fun x => x.id == some pid) = some i →
          s.activePatients[i]? = some p →
          (archiveCheck today pid (withTree s pid tasks2)).activePatients =
            s.activePatients.eraseIdx i ∧
          (archiveCheck today pid (withTree s pid tasks2)).archivedPatients =
            s.archivedPatients ++
            [{ p with archivedDate := some today,
                      archivedBy := some "Auto-Archive (100% Complete)",
                      archivedReason := some "All tasks completed" }]) := by
    intro today pid s tasks2
    constructor
    · rw [archiveCheck_taskData]
      have : storeLookup (withTree s pid tasks2).taskData pid = some tasks2 :=
        storeLookup_insert_self s.taskData pid tasks2
      rw [this]
      rfl
    · intro h100 i p hidx hget
      have h100b : calculateProgress (withTree s pid tasks2) pid = 100 := by
        rw [← calculateProgress_archiveCheck today pid pid (withTree s pid tasks2)]
        exact h100
      exact archiveCheck_spec today pid (withTree s pid tasks2) h100b i p hidx hget
  refine ⟨?_, ?_, ?_, ?_⟩
  · intro today pid ti si s s' hok
    rcases toggleSubtask_ok_inv today pid ti si s s' hok with
      ⟨tasks, task, st, _, _, _, hs'⟩
    subst hs'
    exact main today pid s _
  · intro today pid ti si ssi s s' hok
    rcases toggleSubSubtask_ok_inv today pid ti si ssi s s' hok with
      ⟨tasks, task, st, leaves, leaf, _, _, _, _, _, hs'⟩
    subst hs'
    exact main today pid s _
  · intro today pid ti si ssi v s s' hok
    rcases updateSubSubtaskInput_ok_inv today pid ti si ssi v s s' hok with
      ⟨tasks, task, st, leaves, leaf, _, _, _, _, _, hs'⟩
    subst hs'
    exact main today pid s _
  · intro q fid s
    unfold markAllTasksComplete
    split
    · exact ⟨rfl, rfl⟩
    · exact ⟨rfl, rfl⟩

theorem c3_auto_archive_behavior_witness :
    (storeLookup archivedState.taskData "p1").isSome = true ∧
    archivedState.activePatients = almostState.activePatients.eraseIdx 0 ∧
    archivedState.archivedPatients = almostState.archivedPatients ++
      [{ adamPatient with archivedDate := some "2025-01-01",
                          archivedBy := some "Auto-Archive (100% Complete)",
                          archivedReason := some "All tasks completed" }] := by
  have h := c3_auto_archive_behavior.1 "2025-01-01" "p1" 10 1 almostState archivedState
    (by rfl)
  refine ⟨h.1, ?_, ?_⟩
  · exact (h.2 (by rfl) 0 adamPatient (by rfl) (by rfl)).1
  · exact (h.2 (by rfl) 0 adamPatient (by rfl) (by rfl)).2

def restoredState : AppState := restorePatient 0 archivedState

/-- C4 counterexample: restoring the auto-archived patient moves the record
back to the active collection, but the task tree was never cleared, so the
restored patient's calculateProgress is 100, not 0 (and archivedReason is
still set on the restored record). -/
theorem c4_counterexample :
    restoredState.archivedPatients = [] ∧
    restoredState.activePatients =
      [{ adamPatient with archivedReason := some "All tasks completed" }] ∧
    calculateProgress restoredState "p1" = 100 := by
  refine ⟨rfl, rfl, rfl⟩

/-- C4 (amended): restorePatient at a valid index removes the record from
the archived collection and appends it to the active collection with
archivedDate and archivedBy cleared (archivedReason is kept), and does not
touch any task tree: the restored patient's progress equals its value before
the restore.  A freshly initialized template tree does yield progress 0, but
the restore itself performs no such re-initialization. -/
theorem c4_restore_behavior (s : AppState) (idx : Nat)
    (h : idx < s.archivedPatients.length) :
    (restorePatient idx s).taskData = s.taskData ∧
    (restorePatient idx s).archivedPatients = s.archivedPatients.eraseIdx idx ∧
    (restorePatient idx s).activePatients = s.activePatients ++
      [{ s.archivedPatients.get ⟨idx, h⟩ with archivedDate := none, archivedBy := none }] ∧
    (∀ pid, calculateProgress (restorePatient idx s) pid = calculateProgress s pid) ∧
    progressOfTasks initializePatientTasks = 0 := by
  refine ⟨restorePatient_taskData idx s, ?_, ?_, ?_, by rfl⟩
  · unfold restorePatient
    rw [dif_pos h]
  · unfold restorePatient
    rw [dif_pos h]
    rfl
  · intro pid
    unfold calculateProgress
    rw [restorePatient_taskData]

theorem c4_restore_behavior_witness :
    (restorePatient 0 archivedState).taskData = archivedState.taskData ∧
    progressOfTasks initializePatientTasks = 0 :=
  ⟨(c4_restore_behavior archivedState 0 (by decide)).1,
   (c4_restore_behavior archivedState 0 (by decide)).2.2.2.2⟩

end Claims

end Dashboard



